import Mathlib

/-!
Verification development for the pream-team synchronization engine.

The Python modules `cache_manager.py`, `github_pr_fetcher.py` and
`pream_team_ui.py` are shallowly embedded below: pure helpers become Lean
functions, the effectful pieces (HTTP requests, file writes, `sys.exit`,
raised exceptions) are made explicit through environment parameters and
result types.  Machine-level details that the claims depend on are kept:
CPython's `dict` iteration semantics, `strftime`/`strptime` round-trips
with microsecond truncation, calendar-exact `timedelta` arithmetic, and
the distinction between the exception types caught by each `except`
clause.
-/

namespace PreamTeam

/-! ## Decimal rendering and parsing of numbers (CPython str / strptime digits) -/

/-- The ASCII digit character for a digit value below ten. -/
def digitCh (d : Nat) : Char := Char.ofNat (48 + d)

/-- Numeric value of an ASCII digit character. -/
def charVal (c : Char) : Nat := c.toNat - 48

/-- Whether a character is an ASCII digit. -/
def isDigitCh (c : Char) : Bool := 48 ≤ c.toNat && c.toNat ≤ 57

/-- Decimal digits of a natural number, most significant first.
Zero renders as the single digit zero, as `str(0)` does. -/
def decDigits (n : Nat) : List Nat :=
  if n = 0 then [0] else (Nat.digits 10 n).reverse

/-- Decimal rendering of a natural number as characters, matching `str(n)`
for a nonnegative Python int. -/
def decRepr (n : Nat) : List Char := (decDigits n).map digitCh

/-- Digits of a number zero-padded to width two, as `%02d` formatting
(the glibc `%m`, `%d`, `%H`, `%M`, `%S` strftime directives). -/
def pad2Digits (n : Nat) : List Nat :=
  if n < 10 then 0 :: decDigits n else decDigits n

/-- Character form of `pad2Digits`. -/
def pad2 (n : Nat) : List Char := (pad2Digits n).map digitCh

/-- The `%Y` strftime directive on the target platform renders the year
without padding; all years in play have four digits. -/
def fmtY (n : Nat) : List Char := decRepr n

/-- Greedily take at most `k` leading digit characters, returning their
values and the rest of the input.  This is how `strptime` consumes a
numeric directive of maximal field width `k`. -/
def takeDigits : Nat → List Char → List Nat × List Char
  | 0, cs => ([], cs)
  | _ + 1, [] => ([], [])
  | k + 1, c :: cs =>
    if isDigitCh c then
      let r := takeDigits k cs
      (charVal c :: r.1, r.2)
    else ([], c :: cs)

/-- Value of a most-significant-first digit list. -/
def digitsVal (ds : List Nat) : Nat := ds.foldl (fun a d => 10 * a + d) 0

/-- Parse a number of at most `k` digits (at least one), as a `strptime`
numeric directive does. -/
def parseNum (k : Nat) (cs : List Char) : Option (Nat × List Char) :=
  let r := takeDigits k cs
  if r.1.isEmpty then none else some (digitsVal r.1, r.2)

/-- Require a literal character, as a literal in a `strptime` format. -/
def expectCh (c : Char) : List Char → Option (List Char)
  | [] => none
  | x :: xs => if x = c then some xs else none

/-! ## The Python datetime model

A `datetime.datetime` value is its calendar and clock components plus the
microsecond field.  `strftime` with the formats used by the program drops
the microseconds; `strptime` leaves them zero. -/

structure PyDateTime where
  year : Nat
  month : Nat
  day : Nat
  hour : Nat
  minute : Nat
  second : Nat
  microsecond : Nat
deriving Repr, DecidableEq

/-- Gregorian leap-year test, as `calendar.isleap` / the datetime module. -/
def isLeap (y : Nat) : Bool := (y % 4 = 0 && y % 100 ≠ 0) || y % 400 = 0

/-- Number of days in a month. -/
def daysInMonth (y m : Nat) : Nat :=
  if m = 2 then (if isLeap y then 29 else 28)
  else if m = 4 || m = 6 || m = 9 || m = 11 then 30
  else 31

/-- The validity condition `datetime.datetime` enforces on construction
(and hence the condition under which `strptime` succeeds). -/
def validDT (t : PyDateTime) : Bool :=
  1 ≤ t.year && t.year ≤ 9999 && 1 ≤ t.month && t.month ≤ 12 &&
  1 ≤ t.day && t.day ≤ daysInMonth t.year t.month &&
  t.hour ≤ 23 && t.minute ≤ 59 && t.second ≤ 59 && t.microsecond ≤ 999999

/-- Truncate a datetime to whole seconds. -/
def truncMicro (t : PyDateTime) : PyDateTime :=
  ⟨t.year, t.month, t.day, t.hour, t.minute, t.second, 0⟩

/-- Rendering of `CACHE_TIMESTAMP_FORMAT = "%Y-%m-%d %H:%M:%S"` by
`strftime` (cache_manager.py line 7). -/
def fmtCacheTS (t : PyDateTime) : List Char :=
  fmtY t.year ++ '-' :: pad2 t.month ++ '-' :: pad2 t.day ++
    ' ' :: pad2 t.hour ++ ':' :: pad2 t.minute ++ ':' :: pad2 t.second

/-- `datetime.strptime(s, "%Y-%m-%d %H:%M:%S")`: greedy numeric fields of
maximal widths 4/2/2/2/2/2 separated by the literal characters, requiring
the whole input to be consumed, then datetime validation.  `none` models a
raised `ValueError`. -/
def parseCacheTS (cs : List Char) : Option PyDateTime := do
  let (y, cs) ← parseNum 4 cs
  let cs ← expectCh '-' cs
  let (mo, cs) ← parseNum 2 cs
  let cs ← expectCh '-' cs
  let (d, cs) ← parseNum 2 cs
  let cs ← expectCh ' ' cs
  let (h, cs) ← parseNum 2 cs
  let cs ← expectCh ':' cs
  let (mi, cs) ← parseNum 2 cs
  let cs ← expectCh ':' cs
  let (s, cs) ← parseNum 2 cs
  if cs.isEmpty then
    let t : PyDateTime := ⟨y, mo, d, h, mi, s, 0⟩
    if validDT t then some t else none
  else none

/-- `datetime.strptime(s, "%Y-%m-%dT%H:%M:%SZ")`, the GitHub timestamp
format of github_pr_fetcher.py lines 9-10. -/
def parseGhTS (cs : List Char) : Option PyDateTime := do
  let (y, cs) ← parseNum 4 cs
  let cs ← expectCh '-' cs
  let (mo, cs) ← parseNum 2 cs
  let cs ← expectCh '-' cs
  let (d, cs) ← parseNum 2 cs
  let cs ← expectCh 'T' cs
  let (h, cs) ← parseNum 2 cs
  let cs ← expectCh ':' cs
  let (mi, cs) ← parseNum 2 cs
  let cs ← expectCh ':' cs
  let (s, cs) ← parseNum 2 cs
  let cs ← expectCh 'Z' cs
  if cs.isEmpty then
    let t : PyDateTime := ⟨y, mo, d, h, mi, s, 0⟩
    if validDT t then some t else none
  else none

/-! ## Exact calendar arithmetic

`datetime` subtraction and `timedelta(days=n)` are exact proleptic
Gregorian arithmetic.  Dates are mapped to a day serial number (days since
1970-01-01) and back with the standard civil-calendar conversion; note
that Lean's integer division floors, which is precisely what the
conversion needs. -/

/-- Day serial number of a civil date (days since 1970-01-01). -/
def daysFromCivil (y : Int) (m d : Nat) : Int :=
  let y2 : Int := if m ≤ 2 then y - 1 else y
  let era : Int := y2 / 400
  let yoe : Int := y2 - era * 400
  let mp : Int := if 2 < m then (m : Int) - 3 else (m : Int) + 9
  let doy : Int := (153 * mp + 2) / 5 + d - 1
  let doe : Int := yoe * 365 + yoe / 4 - yoe / 100 + doy
  era * 146097 + doe - 719468

/-- Civil date (year, month, day) of a day serial number. -/
def civilFromDays (z0 : Int) : Int × Nat × Nat :=
  let z := z0 + 719468
  let era : Int := z / 146097
  let doe : Int := z - era * 146097
  let yoe : Int := (doe - doe / 1460 + doe / 36524 - doe / 146096) / 365
  let y : Int := yoe + era * 400
  let doy : Int := doe - (365 * yoe + yoe / 4 - yoe / 100)
  let mp : Int := (5 * doy + 2) / 153
  let d : Int := doy - (153 * mp + 2) / 5 + 1
  let m : Int := if mp < 10 then mp + 3 else mp - 9
  (if m ≤ 2 then y + 1 else y, m.toNat, d.toNat)

/-- Microseconds since the epoch of a datetime; `datetime` subtraction is
the difference of these counts. -/
def dtToMicro (t : PyDateTime) : Int :=
  (daysFromCivil t.year t.month t.day) * 86400000000 +
    ((t.hour * 3600 + t.minute * 60 + t.second) * 1000000 + t.microsecond)

/-- Result of `t1 - t2` on datetimes, as a timedelta in microseconds. -/
def dtSub (t1 t2 : PyDateTime) : Int := dtToMicro t1 - dtToMicro t2

/-- A `timedelta(days = n)` in microseconds. -/
def timedeltaDays (n : Nat) : Int := n * 86400000000

/-! ## cache_manager.py

The cache is a JSON object: a Python dict from subject keys to entry
dicts.  Dicts are modelled as insertion-ordered association lists with
unique keys, which is exactly CPython's observable dict behaviour.  The
payload items are an arbitrary type parameter, since the program stores
raw JSON payloads it never inspects here. -/

/-- Exception kinds distinguished by the embedded code paths. -/
inductive PyExc where
  | valueError
  | keyError
  | typeError
  | attributeError
  | runtimeError
  | fileNotFoundError
  | jsonDecodeError
  | permissionError
deriving Repr, DecidableEq

/-- A JSON value stored inside a cache entry: the `"timestamp"` key holds
a string, the `"prs"` key holds the raw payload list. -/
inductive CVal (α : Type) where
  | s (v : String)
  | p (v : List α)
deriving Repr, DecidableEq

/-- An entry dict; empty means the Python dict `{}` (which is falsy). -/
abbrev CacheEntry (α : Type) := List (String × CVal α)

/-- The in-memory cache dict: subject key to entry. -/
abbrev Cache (α : Type) := List (String × CacheEntry α)

/-- First-match association lookup, i.e. `d.get(k)` on a dict with unique
keys. -/
def dictGet {β : Type} (m : List (String × β)) (k : String) : Option β :=
  match m.find? (fun kv => kv.1 = k) with
  | some kv => some kv.2
  | none => none

/-- `d[k] = v` on a dict: replaces in place if the key exists, appends
otherwise (CPython preserves insertion order). -/
def dictSet {β : Type} (m : List (String × β)) (k : String) (v : β) : List (String × β) :=
  if m.any (fun kv => kv.1 = k) then
    m.map (fun kv => if kv.1 = k then (k, v) else kv)
  else m ++ [(k, v)]

/-- Outcome of `save_prs`: a normal return with the updated cache, a
`sys.exit(1)`, or a propagating exception. -/
inductive SaveResult (α : Type) where
  | ok (cache : Cache α)
  | exited (code : Nat)
  | raised (e : PyExc) (cache : Cache α)

/-- `CacheManager.save_prs` (cache_manager.py lines 37-53).  The entry is
written into the in-memory dict with the strftime-rendered timestamp,
then the whole cache is dumped to the file.  The `writeExc` parameter is
what the `open`/`json.dump` block raises, if anything; the source catches
only `FileNotFoundError` and `json.JSONDecodeError` and turns them into
`sys.exit(1)` — any other exception propagates. -/
def save_prs {α : Type} (cache : Cache α) (user : String) (prs : List α)
    (timestamp : PyDateTime) (writeExc : Option PyExc) : SaveResult α :=
  let cache2 := dictSet cache user
    [("timestamp", CVal.s ⟨fmtCacheTS timestamp⟩), ("prs", CVal.p prs)]
  match writeExc with
  | none => .ok cache2
  | some .fileNotFoundError => .exited 1
  | some .jsonDecodeError => .exited 1
  | some e => .raised e cache2

/-- `CacheManager.load_prs` (cache_manager.py lines 55-70).  Reads from
the in-memory dict: `data = cache.get(user, {})`, return `None` if `data`
is falsy, otherwise `strptime` the `"timestamp"` value (default `""`) and
return `CachedPrs(data.get("prs", []), parsed)`.  A missing or malformed
timestamp string makes `strptime` raise `ValueError`; a non-string value
makes it raise `TypeError`. -/
def load_prs {α : Type} (cache : Cache α) (user : String) :
    Except PyExc (Option (CVal α × PyDateTime)) :=
  let data := (dictGet cache user).getD []
  if data.isEmpty then .ok none
  else
    match dictGet data "timestamp" with
    | some (CVal.p _) => .error .typeError
    | some (CVal.s v) =>
      match parseCacheTS v.data with
      | none => .error .valueError
      | some t => .ok (some ((dictGet data "prs").getD (CVal.p []), t))
    | none =>
      match parseCacheTS "".data with
      | none => .error .valueError
      | some t => .ok (some ((dictGet data "prs").getD (CVal.p []), t))

/-- Scan of `clean_up`'s `for user, data in self.cache.items()` loop.
CPython raises `RuntimeError` from the iterator's `next()` as soon as a
`del` has resized the dict, so the scan stops at the first stale entry:
`none` means the loop completed without deleting, `some (.ok u)` means
the entry of `u` was deleted and the next iteration step raised
`RuntimeError`, `some (.error e)` means the loop body itself raised
(`KeyError` for a missing `"timestamp"`, `ValueError`/`TypeError` from
`strptime`). -/
def cleanScan {α : Type} (now : PyDateTime) (olderThan : Int) :
    List (String × CacheEntry α) → Option (Except PyExc String)
  | [] => none
  | (u, data) :: rest =>
    match dictGet data "timestamp" with
    | none => some (.error .keyError)
    | some (CVal.p _) => some (.error .typeError)
    | some (CVal.s ts) =>
      match parseCacheTS ts.data with
      | none => some (.error .valueError)
      | some t =>
        if dtSub now t > olderThan then some (.ok u)
        else cleanScan now olderThan rest

/-- Outcome of `clean_up`: the persisted cache on success, `sys.exit(1)`,
or a propagating exception together with the in-memory cache at that
point. -/
inductive CleanResult (α : Type) where
  | ok (cache : Cache α)
  | exited (code : Nat)
  | raised (e : PyExc) (cache : Cache α)

/-- `CacheManager.clean_up` (cache_manager.py lines 72-91).  Iterates the
cache dict, deleting entries whose age exceeds `olderThan`, then dumps
the cache to the file.  Because the loop deletes from the dict it is
iterating, CPython raises `RuntimeError` on the iteration step after the
first deletion, before the file is written. -/
def clean_up {α : Type} (cache : Cache α) (now : PyDateTime) (olderThan : Int)
    (writeExc : Option PyExc) : CleanResult α :=
  match cleanScan now olderThan cache with
  | some (.ok u) => .raised .runtimeError (cache.eraseP (fun kv => kv.1 = u))
  | some (.error e) => .raised e cache
  | none =>
    match writeExc with
    | none => .ok cache
    | some .fileNotFoundError => .exited 1
    | some .jsonDecodeError => .exited 1
    | some e => .raised e cache

/-! ## github_pr_fetcher.py: data model -/

/-- The `user` sub-dict of a raw payload (`{"login": ...}`). -/
structure RawUser where
  login : Option String
deriving Repr, DecidableEq

/-- A raw review dict as returned by the reviews sub-resource. -/
structure RawReview where
  user : Option RawUser
  state : Option String
  submitted_at : Option String
deriving Repr, DecidableEq

/-- A raw PR payload dict.  `none` models an absent key.  The
`pull_request_url` field collapses `pr.get("pull_request", {}).get("url",
"")`: absent outer or inner key both yield the default `""`.  `reviews`
is the key the enrichment loop of `_run_call` writes. -/
structure RawPR where
  title : Option String
  user : Option RawUser
  html_url : Option String
  draft : Option Bool
  repository_url : Option String
  created_at : Option String
  pull_request_url : Option String
  reviews : Option (List RawReview)
deriving Repr, DecidableEq

/-- `RawPR` with its `reviews` key replaced, as `pr["reviews"] = data`. -/
def RawPR.withReviews (pr : RawPR) (rv : List RawReview) : RawPR :=
  ⟨pr.title, pr.user, pr.html_url, pr.draft, pr.repository_url,
    pr.created_at, pr.pull_request_url, some rv⟩

/-- The typed `Review` entity (github_pr_fetcher.py lines 22-43).  The
state is stored as whatever string the payload carried. -/
structure Review where
  user : String
  state : String
  submitted_at : Option PyDateTime
deriving Repr, DecidableEq

/-- The typed `PullRequest` entity (github_pr_fetcher.py lines 46-80). -/
structure PullRequest where
  title : String
  author : String
  url : String
  draft : Bool
  repo : String
  created_at : PyDateTime
  reviews : List Review
deriving Repr, DecidableEq

/-- `PullRequest.num_approvals`. -/
def PullRequest.num_approvals (pr : PullRequest) : Nat :=
  (pr.reviews.filter (fun r => r.state = "APPROVED")).length

/-- `PullRequest.__eq__` (lines 74-77): two pull requests are equal iff
their urls are; every other field is ignored.  `__hash__` (lines 70-72)
is `hash(self.url)`, so hashing is consistent with this equality and a
CPython `set` deduplicates by url. -/
def prEq (a b : PullRequest) : Bool := a.url == b.url

/-- Python `str.split(sep)` (auxiliary, accumulating the current chunk).
The result is never empty. -/
def splitOnAux (sep : Char) : List Char → List Char → List (List Char)
  | acc, [] => [acc.reverse]
  | acc, c :: cs =>
    if c = sep then acc.reverse :: splitOnAux sep [] cs
    else splitOnAux sep (c :: acc) cs

/-- Python `s.split(sep)` for a one-character separator. -/
def splitOn (sep : Char) (s : List Char) : List (List Char) := splitOnAux sep [] s

/-- One raw review dict to a `Review` entity (the inner loop of
`raw_pr_info_to_pr_list`, lines 95-103): defaults for missing user login
and state, `strptime` only when `submitted_at` is present. -/
def parseReview (r : RawReview) : Except PyExc Review :=
  let user := ((r.user.getD ⟨none⟩).login).getD ""
  let state := r.state.getD ""
  match r.submitted_at with
  | none => .ok ⟨user, state, none⟩
  | some s =>
    match parseGhTS s.data with
    | none => .error .valueError
    | some t => .ok ⟨user, state, some t⟩

/-- Effectful map that propagates the first raised exception, as a Python
`for` loop building a list does. -/
def mapE {β γ : Type} (f : β → Except PyExc γ) : List β → Except PyExc (List γ)
  | [] => .ok []
  | x :: xs =>
    match f x with
    | .error e => .error e
    | .ok y =>
      match mapE f xs with
      | .error e => .error e
      | .ok ys => .ok (y :: ys)

/-- One raw PR dict to a `PullRequest` entity, in source order (lines
86-104): defaulted `title`/`author`/`url`/`draft`, then
`pr_dict.get("repository_url").split("/")[-1]` — which raises
`AttributeError` on `None` when the key is absent — then
`strptime(pr_dict.get("created_at", ""), ...)` — which raises
`ValueError` when absent or malformed — then the reviews loop. -/
def parseRawPR (pr : RawPR) : Except PyExc PullRequest :=
  let title := pr.title.getD ""
  let author := ((pr.user.getD ⟨none⟩).login).getD ""
  let url := pr.html_url.getD ""
  let draft := pr.draft.getD false
  match pr.repository_url with
  | none => .error .attributeError
  | some ru =>
    let repo : String := ⟨(splitOn '/' ru.data).getLastD []⟩
    match parseGhTS ((pr.created_at.getD "").data) with
    | none => .error .valueError
    | some created =>
      match mapE parseReview (pr.reviews.getD []) with
      | .error e => .error e
      | .ok reviews => .ok ⟨title, author, url, draft, repo, created, reviews⟩

/-- `raw_pr_info_to_pr_list` (github_pr_fetcher.py lines 83-105). -/
def raw_pr_info_to_pr_list (rs : List RawPR) : Except PyExc (List PullRequest) :=
  mapE parseRawPR rs

/-! ## github_pr_fetcher.py: the rate-limited client

A search item is either a JSON string or a PR dict; the repository's own
test feeds the client string items.  A `Response` carries the pieces of
an HTTP response the code inspects: status, the two rate-limit headers
(abstracting the `int(...)` conversion of the header string), the body's
`"message"` and `"items"` fields, and the body as a review array for the
reviews sub-resource. -/

inductive RawItem where
  | str (s : String)
  | dict (d : RawPR)
deriving Repr, DecidableEq

structure Response where
  status : Nat
  rlRemaining : Option Int
  rlReset : Option Int
  message : Option String
  items : Option (List RawItem)
  reviewsBody : List RawReview
deriving Repr, DecidableEq

def REQUEST_BACKOFF_TIME_SECONDS : Nat := 60

def REQUEST_MAX_RETRIES : Nat := 5

/-- List-prefix test (used for the Python `in` substring operator). -/
def isPrefOf : List Char → List Char → Bool
  | [], _ => true
  | _ :: _, [] => false
  | p :: ps, c :: cs => if p = c then isPrefOf ps cs else false

/-- Python `p in s` on strings: `p` occurs as a contiguous substring. -/
def isSubstr (p : List Char) : List Char → Bool
  | [] => p.isEmpty
  | c :: cs => isPrefOf p (c :: cs) || isSubstr p cs

/-- The retry loop of `_secondary_rate_limit_exponential_backoff` (lines
329-369), with `fuel = REQUEST_MAX_RETRIES - retries` and the attempt
index `k`.  `secGet k` is the outcome of the `session.get` of attempt
`k` (`.error` models a raised transport exception, which the `except`
branch handles by sleeping `backoff_time` once more).  Returns the list
of sleep durations in order and the returned response, `none` meaning
the loop exhausted its retries and the function returned `None`. -/
def backoffGo (secGet : Nat → Except Unit Response) :
    Nat → Nat → Nat → List Nat × Option Response
  | 0, _, _ => ([], none)
  | fuel + 1, backoff, k =>
    match secGet k with
    | .ok r =>
      if r.status = 200 then ([backoff], some r)
      else
        let rest := backoffGo secGet fuel (backoff * 2) (k + 1)
        (backoff :: rest.1, rest.2)
    | .error _ =>
      let rest := backoffGo secGet fuel (backoff * 2) (k + 1)
      (backoff :: backoff :: rest.1, rest.2)

/-- `_secondary_rate_limit_exponential_backoff`: 5 retries starting from
a 60 second backoff, sleeping before every attempt. -/
def secondary_rate_limit_backoff (secGet : Nat → Except Unit Response) :
    List Nat × Option Response :=
  backoffGo secGet REQUEST_MAX_RETRIES REQUEST_BACKOFF_TIME_SECONDS 0

/-- Body of the reviews-enrichment loop of `_run_call` (lines 278-285)
for one search item: fetch `<pull-request-url>/reviews` and attach the
body on HTTP 200, an empty list otherwise.  A string item raises
`AttributeError` at `pr.get("pull_request", {})`. -/
def enrichOne (reviewsGet : String → Response) (it : RawItem) : Except PyExc RawPR :=
  match it with
  | .str _ => .error .attributeError
  | .dict pr =>
    let resp := reviewsGet ((pr.pull_request_url.getD "") ++ "/reviews")
    if resp.status = 200 then .ok (pr.withReviews resp.reviewsBody)
    else .ok (pr.withReviews [])

/-- The whole enrichment loop. -/
def enrich (reviewsGet : String → Response) (items : List RawItem) :
    Except PyExc (List RawPR) :=
  mapE (enrichOne reviewsGet) items

/-- Observable outcome of `_run_call`: the primary-limit sleep duration
if one happened, the backoff sleeps if the secondary handler ran, and
the returned item list (or the propagating exception). -/
structure RunResult where
  primarySleep : Option Int
  backoffWaits : List Nat
  result : Except PyExc (List RawPR)
deriving Repr

/-- `_run_call` (github_pr_fetcher.py lines 245-286).  `now` is
`time.time()` at the primary handler, `first` the response of the
initial GET, `retryGet` the response of the primary handler's single
retry (`_primary_rate_limit_retry`, lines 288-313, sleeps
`reset - now + 5` and issues exactly one `session.get`), `secGet` the
responses seen by the secondary backoff loop, `reviewsGet` the responses
of the per-PR reviews requests. -/
def run_call (now : Int) (first : Response) (retryGet : Response)
    (secGet : Nat → Except Unit Response) (reviewsGet : String → Response) : RunResult :=
  let primary : Except PyExc (Option Int × Response) :=
    if first.status = 403 ∧ first.rlRemaining = some 0 then
      match first.rlReset with
      | none => .error .keyError
      | some reset => .ok (some (reset - now + 5), retryGet)
    else .ok (none, first)
  match primary with
  | .error e => ⟨none, [], .error e⟩
  | .ok (sleep1, resp1) =>
    let stepped :=
      if resp1.status = 403 ∧
          isSubstr "secondary rate limit".data (resp1.message.getD "").data then
        secondary_rate_limit_backoff secGet
      else ([], some resp1)
    match stepped.2 with
    | none => ⟨sleep1, stepped.1, .ok []⟩
    | some r =>
      if r.status = 200 ∨ r.status = 403 then
        ⟨sleep1, stepped.1, enrich reviewsGet (r.items.getD [])⟩
      else ⟨sleep1, stepped.1, .ok []⟩

/-! ## github_pr_fetcher.py: query construction -/

def GITHUB_API_URL : String := "https://api.github.com"

/-- The year-month-day rendering `strftime("%Y-%m-%d")`. -/
def ymdChars (y m d : Nat) : List Char := fmtY y ++ '-' :: pad2 m ++ '-' :: pad2 d

/-- `ymdChars` applied to a civil triple from `civilFromDays`. -/
def ymdOfCivil (c : Int × Nat × Nat) : List Char := ymdChars c.1.toNat c.2.1 c.2.2

/-- `GitHubPRFetcher._make_time_filter` (lines 240-243):
`end = datetime.now()`, `start = end - timedelta(days=days_back)`, both
rendered `"%Y-%m-%d"` and joined with `".."`.  The timedelta subtraction
is serial-day arithmetic on the civil calendar. -/
def make_time_filter (daysBack : Nat) (now : PyDateTime) : List Char :=
  let startDay := daysFromCivil now.year now.month now.day - daysBack
  ymdOfCivil (civilFromDays startDay) ++ '.' :: '.' :: ymdChars now.year now.month now.day

/-- The `org_str` clause: `f"+org:{org}"` when an organization is set,
empty otherwise. -/
def orgClause (org : Option String) : List Char :=
  match org with
  | some o => "+org:".data ++ o.data
  | none => []

/-- The authored-by query of `get_open_prs_for_user` (lines 183-188). -/
def get_open_prs_query (username : String) (org : Option String) (daysBack : Nat)
    (now : PyDateTime) : List Char :=
  GITHUB_API_URL.data ++ "/search/issues?q=author:".data ++ username.data ++
    orgClause org ++ "+type:pr+is:open+created:".data ++ make_time_filter daysBack now

/-- The review-requested-user query of `get_prs_with_review_request_user`
(lines 203-208). -/
def review_req_user_query (username : String) (org : Option String) (daysBack : Nat)
    (now : PyDateTime) : List Char :=
  GITHUB_API_URL.data ++ "/search/issues?q=is:pr+review-requested:".data ++ username.data ++
    orgClause org ++ "+created:".data ++ make_time_filter daysBack now ++ "+is:open".data

/-- The review-requested-team query of `get_prs_with_review_request_team`
(lines 222-227). -/
def review_req_team_query (teamname : String) (org : Option String) (daysBack : Nat)
    (now : PyDateTime) : List Char :=
  GITHUB_API_URL.data ++ "/search/issues?q=is:pr+team-review-requested:".data ++ teamname.data ++
    orgClause org ++ "+created:".data ++ make_time_filter daysBack now ++ "+is:open".data

/-! ## pream_team_ui.py: deduplication

`PreamTeamUI.set_review_requested_prs` (lines 177-183) starts with
`prs = list(set(prs))`.  A CPython `set` built from a list keeps, for
each equivalence class of `__eq__` (url equality here, with `__hash__`
consistent), the first element encountered. -/

/-- Adding one element to the set: a no-op when an equal element is
already present. -/
def setAdd (s : List PullRequest) (x : PullRequest) : List PullRequest :=
  if s.any (fun y => prEq y x) then s else s ++ [x]

/-- `set(prs)`, enumerated in first-insertion order (the claims proved
about it do not depend on enumeration order, only on multiplicity). -/
def pySetOfList (l : List PullRequest) : List PullRequest := l.foldl setAdd []

/-- The deduplicated list `list(set(prs))` that
`set_review_requested_prs` renders.  The orchestrator passes the
concatenation of the "me" and "my team" review-request result lists
(spec section 4.4 step 5). -/
def set_review_requested_prs (prs : List PullRequest) : List PullRequest :=
  pySetOfList prs

/-! ## Query-analysis helpers

These are specification-side observers (not translations of source code):
substring-occurrence counting for the `+org:` clause and the shape of a
`YYYY-MM-DD` date rendering. -/

/-- Number of (possibly overlapping) occurrences of `p` as a contiguous
substring. -/
def countOcc (p : List Char) : List Char → Nat
  | [] => 0
  | c :: cs => (if isPrefOf p (c :: cs) = true then 1 else 0) + countOcc p cs

/-- A conservative check on a literal block: every `'+'` in it is
immediately followed by a character other than `'o'`, so no occurrence of
`"+org:"` can start inside the block, whatever follows it. -/
def litSafe : List Char → Bool
  | [] => true
  | c :: rest =>
    if c = '+' then
      match rest with
      | [] => false
      | c2 :: _ => if c2 = 'o' then false else litSafe rest
    else litSafe rest

/-- The string has exactly the shape `YYYY-MM-DD`: four digits, dash, two
digits, dash, two digits. -/
def isYMDShape (s : List Char) : Bool :=
  match s with
  | [y1, y2, y3, y4, s1, m1, m2, s2, d1, d2] =>
    isDigitCh y1 && isDigitCh y2 && isDigitCh y3 && isDigitCh y4 &&
    s1 == '-' && isDigitCh m1 && isDigitCh m2 && s2 == '-' &&
    isDigitCh d1 && isDigitCh d2
  | _ => false

/-- Discriminator: did `save_prs` call `sys.exit`? -/
def SaveResult.isExited {α : Type} : SaveResult α → Bool
  | .exited _ => true
  | _ => false

/-- The organization clause pattern `"+org:"` as characters. -/
def orgPat : List Char := ['+', 'o', 'r', 'g', ':']

/-! ## Inputs used by witnesses and counterexamples -/

def defRawPR : RawPR := ⟨none, none, none, none, none, none, none, none⟩

def c2First : Response := ⟨403, some 0, some 101, some "Rate limit exceeded", none, []⟩

def c2Retry : Response :=
  ⟨200, none, none, none, some [.str "one", .str "two"], []⟩

def c2ReviewsGet : String → Response := fun _ => ⟨200, none, none, none, none, []⟩

def c2SecGet : Nat → Except Unit Response := fun _ => .error ()

def c4T : PyDateTime := ⟨2024, 5, 17, 13, 4, 5, 500000⟩

def c8T : PyDateTime := ⟨2024, 5, 17, 13, 4, 5, 0⟩

def c10Cache : Cache Nat := [("alice", [])]

def c10CacheMissingTS : Cache Nat := [("bob", [("prs", CVal.p [1])])]

def c10CacheBadTS : Cache Nat := [("carl", [("timestamp", CVal.s "oops")])]

def c10CacheGoodTS : Cache Nat :=
  [("dora", [("timestamp", CVal.s "2024-01-02 03:04:05"), ("prs", CVal.p [7])])]

def c5T0 : PyDateTime := ⟨2024, 1, 1, 0, 0, 0, 0⟩

def c5Me : List PullRequest := [⟨"t1", "a1", "http://x", false, "r1", c5T0, []⟩]

def c5Team : List PullRequest := [⟨"t2", "a2", "http://x", true, "r2", c5T0, []⟩]

def c9Raw : RawPR :=
  ⟨none, none, none, none, some "https://api.github.com/repos/acme/widget",
    some "2024-05-17T13:04:05Z", none, none⟩

def c7Raw : RawPR :=
  ⟨some "T", none, none, none, none, none, some "https://api.github.com/repos/a/b/pulls/1", none⟩

def c7ReviewsGet : String → Response := fun _ => ⟨404, none, none, none, none, []⟩

def c6Now : PyDateTime := ⟨2026, 10, 12, 9, 30, 0, 0⟩

def c1Resp403 : Response := ⟨403, none, none, some "secondary rate limit", none, []⟩

def c1Resp200 : Response := ⟨200, none, none, none, none, []⟩

def c1SecGet : Nat → Except Unit Response :=
  fun k => if k < 2 then .ok c1Resp403 else .ok c1Resp200

def c1SecGetAll403 : Nat → Except Unit Response := fun _ => .ok c1Resp403

def c3StaleCache : Cache Nat :=
  [("alice", [("timestamp", CVal.s "2024-01-01 00:00:00"), ("prs", CVal.p [])])]

def c3BoundaryCache : Cache Nat :=
  [("alice", [("timestamp", CVal.s "2024-01-10 00:00:00"), ("prs", CVal.p [])])]

def c3Now : PyDateTime := ⟨2024, 1, 20, 0, 0, 0, 0⟩


/-! # Theorems -/

/-! ## Lemmas about decimal rendering and parsing -/

theorem charVal_digitCh {d : Nat} (h : d < 10) : charVal (digitCh d) = d := by
  interval_cases d <;> rfl

theorem isDigitCh_digitCh {d : Nat} (h : d < 10) : isDigitCh (digitCh d) = true := by
  interval_cases d <;> rfl

theorem decDigits_lt (n : Nat) : ∀ d ∈ decDigits n, d < 10 := by
  intro d hd
  unfold decDigits at hd
  by_cases h : n = 0
  · simp [h] at hd; omega
  · simp [h] at hd
    exact Nat.digits_lt_base (by norm_num) hd

theorem pad2Digits_lt (n : Nat) : ∀ d ∈ pad2Digits n, d < 10 := by
  intro d hd
  unfold pad2Digits at hd
  by_cases h : n < 10 <;> simp [h] at hd
  · rcases hd with h0 | h1
    · omega
    · exact decDigits_lt n d h1
  · exact decDigits_lt n d hd

theorem foldl_digits_eq (l : List Nat) :
    ∀ a, l.foldl (fun x d => 10 * x + d) a = a * 10 ^ l.length + Nat.ofDigits 10 l.reverse := by
  induction l with
  | nil => intro a; simp [Nat.ofDigits]
  | cons d l ih =>
    intro a
    have := ih (10 * a + d)
    simp only [List.foldl_cons, List.reverse_cons, List.length_cons] at *
    rw [this, Nat.ofDigits_append]
    simp [Nat.ofDigits]
    ring

theorem digitsVal_decDigits (n : Nat) : digitsVal (decDigits n) = n := by
  unfold digitsVal decDigits
  by_cases h : n = 0
  · simp [h, foldl_digits_eq]
  · simp only [h, if_false]
    rw [foldl_digits_eq, List.reverse_reverse, Nat.ofDigits_digits]
    simp

theorem digitsVal_pad2Digits (n : Nat) : digitsVal (pad2Digits n) = n := by
  unfold pad2Digits
  by_cases h : n < 10
  · have : digitsVal (0 :: decDigits n) = digitsVal (decDigits n) := by
      unfold digitsVal
      simp
    simp [h, this, digitsVal_decDigits]
  · simp [h, digitsVal_decDigits]

theorem decDigits_length (n : Nat) (h : n ≠ 0) :
    (decDigits n).length = Nat.log 10 n + 1 := by
  unfold decDigits
  simp [h, Nat.digits_len 10 n (by norm_num) h]

theorem decDigits_length_le_four {n : Nat} (h : n ≤ 9999) : (decDigits n).length ≤ 4 := by
  by_cases h0 : n = 0
  · simp [decDigits, h0]
  · rw [decDigits_length n h0]
    have : Nat.log 10 n ≤ 3 := by
      by_contra hlt
      push_neg at hlt
      have h4 : 4 ≤ Nat.log 10 n := hlt
      have := Nat.pow_log_le_self 10 h0
      have h10 : (10 : Nat) ^ 4 ≤ 10 ^ Nat.log 10 n := Nat.pow_le_pow_right (by norm_num) h4
      omega
    omega

theorem decDigits_length_eq_four {n : Nat} (h1 : 1000 ≤ n) (h2 : n ≤ 9999) :
    (decDigits n).length = 4 := by
  have h0 : n ≠ 0 := by omega
  rw [decDigits_length n h0]
  have : Nat.log 10 n = 3 :=
    Nat.log_eq_of_pow_le_of_lt_pow (by norm_num; omega) (by norm_num; omega)
  omega

theorem decDigits_length_eq_one {n : Nat} (h : n < 10) : (decDigits n).length = 1 := by
  by_cases h0 : n = 0
  · simp [decDigits, h0]
  · rw [decDigits_length n h0]
    have : Nat.log 10 n = 0 := Nat.log_eq_zero_iff.mpr (Or.inl h)
    omega

theorem pad2Digits_length {n : Nat} (h : n < 100) : (pad2Digits n).length = 2 := by
  unfold pad2Digits
  by_cases h10 : n < 10
  · simp [h10, decDigits_length_eq_one h10]
  · simp only [h10, if_false]
    have h0 : n ≠ 0 := by omega
    rw [decDigits_length n h0]
    have : Nat.log 10 n = 1 :=
      Nat.log_eq_of_pow_le_of_lt_pow (by norm_num; omega) (by norm_num; omega)
    omega

theorem takeDigits_exact (ds : List Nat) (rest : List Char) (hd : ∀ d ∈ ds, d < 10) :
    takeDigits ds.length (ds.map digitCh ++ rest) = (ds, rest) := by
  induction ds with
  | nil => simp [takeDigits]
  | cons d ds ih =>
    have hdd : d < 10 := hd d (List.mem_cons_self d ds)
    have hds : ∀ x ∈ ds, x < 10 := fun x hx => hd x (List.mem_cons_of_mem d hx)
    simp only [List.length_cons, List.map_cons, List.cons_append, takeDigits,
      isDigitCh_digitCh hdd, if_true, List.append_eq, ih hds, charVal_digitCh hdd]

theorem takeDigits_stop (k : Nat) (ds : List Nat) (c : Char) (rest : List Char)
    (hlen : ds.length ≤ k) (hd : ∀ d ∈ ds, d < 10) (hc : isDigitCh c = false) :
    takeDigits k (ds.map digitCh ++ c :: rest) = (ds, c :: rest) := by
  induction ds generalizing k with
  | nil =>
    match k with
    | 0 => simp [takeDigits]
    | k + 1 => simp [takeDigits, hc]
  | cons d ds ih =>
    match k with
    | 0 => simp at hlen
    | k + 1 =>
      have hdd : d < 10 := hd d (List.mem_cons_self d ds)
      have hds : ∀ x ∈ ds, x < 10 := fun x hx => hd x (List.mem_cons_of_mem d hx)
      have hlen' : ds.length ≤ k := by simpa using hlen
      simp only [List.map_cons, List.cons_append, takeDigits,
        isDigitCh_digitCh hdd, if_true, List.append_eq, ih k hlen' hds, charVal_digitCh hdd]

theorem parseNum_decRepr {n : Nat} (k : Nat) (c : Char) (rest : List Char)
    (hlen : (decDigits n).length ≤ k) (hc : isDigitCh c = false) :
    parseNum k (decRepr n ++ c :: rest) = some (n, c :: rest) := by
  unfold parseNum decRepr
  rw [takeDigits_stop k (decDigits n) c rest hlen (decDigits_lt n) hc]
  have hne : decDigits n ≠ [] := by
    unfold decDigits
    by_cases h : n = 0 <;> simp [h, Nat.digits_ne_nil_iff_ne_zero]
  simp [List.isEmpty_iff, hne, digitsVal_decDigits]

theorem parseNum_pad2 {n : Nat} (h : n < 100) (rest : List Char) :
    parseNum 2 (pad2 n ++ rest) = some (n, rest) := by
  unfold parseNum pad2
  have h2 : (pad2Digits n).length = 2 := pad2Digits_length h
  have := takeDigits_exact (pad2Digits n) rest (pad2Digits_lt n)
  rw [h2] at this
  rw [this]
  have hne : pad2Digits n ≠ [] := by
    intro habs
    have := pad2Digits_length h
    rw [habs] at this
    simp at this
  simp [List.isEmpty_iff, hne, digitsVal_pad2Digits]

theorem expectCh_cons (c : Char) (cs : List Char) : expectCh c (c :: cs) = some cs := by
  simp [expectCh]

/-- strptime of an strftime-rendered cache timestamp recovers the datetime
with the microseconds zeroed: the format has no microsecond directive. -/
theorem parseCacheTS_fmtCacheTS (t : PyDateTime) (h : validDT t = true) :
    parseCacheTS (fmtCacheTS t) = some (truncMicro t) := by
  have hv := h
  unfold validDT at hv
  simp only [Bool.and_eq_true, decide_eq_true_eq] at hv
  obtain ⟨⟨⟨⟨⟨⟨⟨⟨⟨hy1, hy2⟩, hm1⟩, hm2⟩, hd1⟩, hd2⟩, hh⟩, hmi⟩, hs⟩, hmu⟩ := hv
  have hdim : t.day ≤ 31 := by
    have : daysInMonth t.year t.month ≤ 31 := by
      unfold daysInMonth
      split
      · split <;> omega
      · split <;> omega
    omega
  have hvt : validDT (truncMicro t) = true := by
    unfold validDT truncMicro
    simp only [Bool.and_eq_true, decide_eq_true_eq]
    refine ⟨⟨⟨⟨⟨⟨⟨⟨⟨hy1, hy2⟩, hm1⟩, hm2⟩, hd1⟩, ?_⟩, hh⟩, hmi⟩, hs⟩, by omega⟩
    simpa using hd2
  have hfmt : fmtCacheTS t =
      decRepr t.year ++ '-' :: (pad2 t.month ++ '-' :: (pad2 t.day ++
        ' ' :: (pad2 t.hour ++ ':' :: (pad2 t.minute ++ ':' :: pad2 t.second)))) := by
    simp [fmtCacheTS, fmtY]
  have hyr : ∀ rest, parseNum 4 (decRepr t.year ++ '-' :: rest) = some (t.year, '-' :: rest) :=
    fun rest => parseNum_decRepr 4 '-' rest (decDigits_length_le_four hy2) rfl
  have hmo : ∀ rest, parseNum 2 (pad2 t.month ++ rest) = some (t.month, rest) :=
    fun rest => parseNum_pad2 (by omega) rest
  have hda : ∀ rest, parseNum 2 (pad2 t.day ++ rest) = some (t.day, rest) :=
    fun rest => parseNum_pad2 (by omega) rest
  have hho : ∀ rest, parseNum 2 (pad2 t.hour ++ rest) = some (t.hour, rest) :=
    fun rest => parseNum_pad2 (by omega) rest
  have hmn : ∀ rest, parseNum 2 (pad2 t.minute ++ rest) = some (t.minute, rest) :=
    fun rest => parseNum_pad2 (by omega) rest
  have hse : parseNum 2 (pad2 t.second) = some (t.second, []) := by
    have := parseNum_pad2 (show t.second < 100 by omega) ([] : List Char)
    rwa [List.append_nil] at this
  have hvt2 : validDT ⟨t.year, t.month, t.day, t.hour, t.minute, t.second, 0⟩ = true := hvt
  unfold parseCacheTS
  rw [hfmt]
  simp only [hyr, hmo, hda, hho, hmn, hse, expectCh_cons, Option.bind_eq_bind,
    Option.some_bind, List.isEmpty_nil, if_true, hvt2]
  rfl

/-! ## Lemmas about the secondary-rate-limit backoff loop -/

theorem range_pow_shift (b N : Nat) :
    (List.range (N + 1)).map (fun j => b * 2 ^ j) =
      b :: (List.range N).map (fun j => b * 2 * 2 ^ j) := by
  rw [List.range_succ_eq_map, List.map_cons, List.map_map]
  simp only [pow_zero, mul_one]
  refine congrArg (List.cons b) ?_
  refine List.map_congr_left ?_
  intro j _
  simp only [Function.comp_apply, pow_succ]
  ring

theorem backoffGo_succeeds (secGet : Nat → Except Unit Response) :
    ∀ (N : Nat) (fuel s b : Nat) (r : Response), N < fuel →
      (∀ j, j < N → ∃ rj, secGet (s + j) = .ok rj ∧ rj.status = 403) →
      secGet (s + N) = .ok r → r.status = 200 →
      backoffGo secGet fuel b s = ((List.range (N + 1)).map (fun j => b * 2 ^ j), some r) := by
  intro N
  induction N with
  | zero =>
    intro fuel s b r hfuel h403 hok h200
    match fuel, hfuel with
    | fuel + 1, _ =>
      simp only [Nat.add_zero] at hok
      simp [backoffGo, hok, h200, List.range_succ]
  | succ N ih =>
    intro fuel s b r hfuel h403 hok h200
    match fuel, hfuel with
    | fuel + 1, _ =>
      obtain ⟨r0, hr0, hr0s⟩ := h403 0 (Nat.succ_pos N)
      simp only [Nat.add_zero] at hr0
      have hr0ne : ¬ r0.status = 200 := by omega
      have hok2 : secGet (s + 1 + N) = .ok r := by
        have he : s + 1 + N = s + (N + 1) := by omega
        rwa [he]
      have hrec := ih fuel (s + 1) (b * 2) r (by omega)
        (fun j hj => by
          obtain ⟨rj, h1, h2⟩ := h403 (j + 1) (by omega)
          have he : s + (j + 1) = s + 1 + j := by omega
          rw [he] at h1
          exact ⟨rj, h1, h2⟩)
        hok2 h200
      simp only [backoffGo, hr0, hr0ne, if_false, hrec]
      rw [range_pow_shift b (N + 1)]

theorem backoffGo_exhausts (secGet : Nat → Except Unit Response) :
    ∀ (fuel s b : Nat),
      (∀ j, j < fuel → ∃ rj, secGet (s + j) = .ok rj ∧ rj.status = 403) →
      backoffGo secGet fuel b s = ((List.range fuel).map (fun j => b * 2 ^ j), none) := by
  intro fuel
  induction fuel with
  | zero => intro s b _; simp [backoffGo]
  | succ fuel ih =>
    intro s b h403
    obtain ⟨r0, hr0, hr0s⟩ := h403 0 (Nat.succ_pos fuel)
    simp only [Nat.add_zero] at hr0
    have hr0ne : ¬ r0.status = 200 := by omega
    have hrec := ih (s + 1) (b * 2)
      (fun j hj => by
        obtain ⟨rj, h1, h2⟩ := h403 (j + 1) (by omega)
        have he : s + (j + 1) = s + 1 + j := by omega
        rw [he] at h1
        exact ⟨rj, h1, h2⟩)
    simp only [backoffGo, hr0, hr0ne, if_false, hrec]
    rw [range_pow_shift b fuel]

/-- C1.  Secondary-rate-limit handler: when the handler sees N consecutive
403 responses followed by a 200 (N below the retry cap of 5), it sleeps
before every attempt, performs exactly N+1 attempts (one sleep recorded
per attempt), the sleep before attempt k being 60 * 2^(k-1) seconds, and
returns the 200 response; when all 5 attempts fail with 403 it stops
after exactly 5 attempts and returns failure (None). -/
theorem secondary_backoff_c1 :
    (∀ (secGet : Nat → Except Unit Response) (N : Nat) (r : Response),
      N < 5 →
      (∀ j, j < N → ∃ rj, secGet j = .ok rj ∧ rj.status = 403) →
      secGet N = .ok r → r.status = 200 →
      secondary_rate_limit_backoff secGet =
        ((List.range (N + 1)).map (fun k => 60 * 2 ^ k), some r)) ∧
    (∀ (secGet : Nat → Except Unit Response),
      (∀ j, j < 5 → ∃ rj, secGet j = .ok rj ∧ rj.status = 403) →
      secondary_rate_limit_backoff secGet =
        ((List.range 5).map (fun k => 60 * 2 ^ k), none)) := by
  constructor
  · intro secGet N r hN h403 hok h200
    have := backoffGo_succeeds secGet N 5 0 60 r hN
      (fun j hj => by simpa using h403 j hj) (by simpa using hok) h200
    simpa [secondary_rate_limit_backoff, REQUEST_MAX_RETRIES,
      REQUEST_BACKOFF_TIME_SECONDS] using this
  · intro secGet h403
    have := backoffGo_exhausts secGet 5 0 60 (fun j hj => by simpa using h403 j hj)
    simpa [secondary_rate_limit_backoff, REQUEST_MAX_RETRIES,
      REQUEST_BACKOFF_TIME_SECONDS] using this

/-- Witness for C1 at N = 2: three attempts with sleeps 60, 120, 240, and
the exhaustion case with five sleeps 60..960. -/
theorem secondary_backoff_c1_witness :
    secondary_rate_limit_backoff c1SecGet =
      ((List.range 3).map (fun k => 60 * 2 ^ k), some c1Resp200) ∧
    secondary_rate_limit_backoff c1SecGetAll403 =
      ((List.range 5).map (fun k => 60 * 2 ^ k), none) := by
  constructor
  · exact secondary_backoff_c1.1 c1SecGet 2 c1Resp200 (by decide)
      (fun j hj => ⟨c1Resp403, by interval_cases j <;> exact ⟨rfl, rfl⟩⟩)
      rfl rfl
  · exact secondary_backoff_c1.2 c1SecGetAll403
      (fun j hj => ⟨c1Resp403, rfl, rfl⟩)

/-! ## C3: clean_up -/

/-- C3.  The cleanup pass does not do what the claim says: on a cache
holding one entry strictly older than the 10-day retention it deletes the
entry and then raises RuntimeError from the dict iterator (CPython:
dictionary changed size during iteration) without ever persisting; an
entry of age exactly equal to the retention is indeed kept and the cache
is persisted unchanged. -/
theorem clean_up_c3 :
    clean_up c3StaleCache c3Now (timedeltaDays 10) none =
      .raised .runtimeError [] ∧
    clean_up c3BoundaryCache c3Now (timedeltaDays 10) none =
      .ok c3BoundaryCache := by
  constructor <;> rfl

/-! ## Dict lemmas -/

theorem dictGet_cons_eq {β : Type} (kv : String × β) (m : List (String × β)) (k : String)
    (h : kv.1 = k) : dictGet (kv :: m) k = some kv.2 := by
  unfold dictGet
  rw [List.find?_cons_of_pos]
  simpa using h

theorem dictGet_cons_ne {β : Type} (kv : String × β) (m : List (String × β)) (k : String)
    (h : kv.1 ≠ k) : dictGet (kv :: m) k = dictGet m k := by
  unfold dictGet
  rw [List.find?_cons_of_neg]
  simpa using h

theorem dictGet_map_replace {β : Type} (m : List (String × β)) (k : String) (v : β)
    (h : m.any (fun kv => kv.1 = k) = true) :
    dictGet (m.map (fun kv => if kv.1 = k then (k, v) else kv)) k = some v := by
  induction m with
  | nil => simp at h
  | cons kv m ih =>
    by_cases hk : kv.1 = k
    · rw [List.map_cons, if_pos hk, dictGet_cons_eq _ _ _ rfl]
    · have h2 : m.any (fun kv => kv.1 = k) = true := by
        simp only [List.any_cons, Bool.or_eq_true, decide_eq_true_eq] at h
        rcases h with h | h
        · exact absurd h hk
        · simpa using h
      rw [List.map_cons, if_neg hk, dictGet_cons_ne _ _ _ hk]
      exact ih h2

theorem dictGet_append_missing {β : Type} (m : List (String × β)) (k : String) (v : β)
    (h : m.any (fun kv => kv.1 = k) = false) :
    dictGet (m ++ [(k, v)]) k = some v := by
  induction m with
  | nil => exact dictGet_cons_eq _ _ _ rfl
  | cons kv m ih =>
    simp only [List.any_cons, Bool.or_eq_false_iff, decide_eq_false_iff_not] at h
    obtain ⟨h1, h2⟩ := h
    rw [List.cons_append, dictGet_cons_ne _ _ _ h1]
    exact ih (by simpa using h2)

theorem dictGet_dictSet {β : Type} (m : List (String × β)) (k : String) (v : β) :
    dictGet (dictSet m k v) k = some v := by
  unfold dictSet
  by_cases h : m.any (fun kv => kv.1 = k) = true
  · rw [if_pos h]
    exact dictGet_map_replace m k v h
  · rw [if_neg h]
    exact dictGet_append_missing m k v (by rwa [Bool.not_eq_true] at h)

/-! ## Load after save -/

theorem load_prs_after_save {α : Type} (cache : Cache α) (user : String)
    (prs : List α) (t : PyDateTime) (h : validDT t = true) :
    load_prs (dictSet cache user
      [("timestamp", CVal.s ⟨fmtCacheTS t⟩), ("prs", CVal.p prs)]) user =
      .ok (some (CVal.p prs, truncMicro t)) := by
  have hts : dictGet [("timestamp", CVal.s (⟨fmtCacheTS t⟩ : String)),
      ("prs", CVal.p prs)] "timestamp" = some (CVal.s ⟨fmtCacheTS t⟩) :=
    dictGet_cons_eq _ _ _ rfl
  have hprs : dictGet [("timestamp", CVal.s (⟨fmtCacheTS t⟩ : String)),
      ("prs", CVal.p prs)] "prs" = some (CVal.p prs) := by
    rw [dictGet_cons_ne _ _ _ (show ("timestamp" : String) ≠ "prs" by decide)]
    exact dictGet_cons_eq _ _ _ rfl
  have hparse : parseCacheTS (String.data ⟨fmtCacheTS t⟩) = some (truncMicro t) :=
    parseCacheTS_fmtCacheTS t h
  unfold load_prs
  rw [dictGet_dictSet]
  simp only [Option.getD_some, List.isEmpty_cons, Bool.false_eq_true, if_false, hts,
    hparse, hprs]

/-- C4.  Amended cache round trip: `save_prs(user, prs, t)` followed by
`load_prs(user)` returns the payload list unchanged together with `t`
truncated to whole seconds — the `"%Y-%m-%d %H:%M:%S"` file format drops
the microsecond field, so the timestamp comes back unchanged exactly when
`t.microsecond = 0`. -/
theorem save_load_roundtrip_c4 (α : Type) (cache : Cache α) (user : String)
    (prs : List α) (t : PyDateTime) (h : validDT t = true) :
    save_prs cache user prs t none =
      .ok (dictSet cache user [("timestamp", CVal.s ⟨fmtCacheTS t⟩), ("prs", CVal.p prs)]) ∧
    load_prs (dictSet cache user
      [("timestamp", CVal.s ⟨fmtCacheTS t⟩), ("prs", CVal.p prs)]) user =
      .ok (some (CVal.p prs, truncMicro t)) :=
  ⟨rfl, load_prs_after_save cache user prs t h⟩

/-- Witness for C4 at a concrete datetime with zero microseconds (where
the round trip is the identity). -/
theorem save_load_roundtrip_c4_witness :
    validDT c8T = true ∧
    load_prs (dictSet ([] : Cache Nat) "u"
      [("timestamp", CVal.s ⟨fmtCacheTS c8T⟩), ("prs", CVal.p [1, 2])]) "u" =
      .ok (some (CVal.p [1, 2], truncMicro c8T)) :=
  ⟨by decide, (save_load_roundtrip_c4 Nat [] "u" [1, 2] c8T (by decide)).2⟩

/-- C4 counterexample: for a timestamp carrying microseconds the round
trip does not return `t` unchanged — the claim's "for every timestamp" is
false. -/
theorem save_load_c4_counterexample :
    save_prs ([] : Cache Nat) "u" [1, 2] c4T none =
      .ok (dictSet [] "u" [("timestamp", CVal.s ⟨fmtCacheTS c4T⟩), ("prs", CVal.p [1, 2])]) ∧
    load_prs (dictSet ([] : Cache Nat) "u"
      [("timestamp", CVal.s ⟨fmtCacheTS c4T⟩), ("prs", CVal.p [1, 2])]) "u" =
      .ok (some (CVal.p [1, 2], truncMicro c4T)) ∧
    truncMicro c4T ≠ c4T :=
  ⟨rfl, load_prs_after_save [] "u" [1, 2] c4T (by decide), by decide⟩

/-! ## C8: save_prs on persistence failure -/

/-- C8.  Amended: a persistence failure of type `FileNotFoundError` or
`json.JSONDecodeError` during the save makes the process exit with code
1; any other exception (e.g. `PermissionError` for an unwritable file) is
not caught by `save_prs` and propagates to the caller instead of
terminating the process. -/
theorem save_prs_c8 (α : Type) (cache : Cache α) (user : String) (prs : List α)
    (t : PyDateTime) :
    save_prs cache user prs t (some .fileNotFoundError) = .exited 1 ∧
    save_prs cache user prs t (some .jsonDecodeError) = .exited 1 ∧
    ∀ e, e ≠ .fileNotFoundError → e ≠ .jsonDecodeError →
      save_prs cache user prs t (some e) =
        .raised e (dictSet cache user
          [("timestamp", CVal.s ⟨fmtCacheTS t⟩), ("prs", CVal.p prs)]) := by
  refine ⟨rfl, rfl, ?_⟩
  intro e h1 h2
  cases e <;> first
    | rfl
    | exact absurd rfl h1
    | exact absurd rfl h2

/-- Witness for C8: the propagation branch at `PermissionError`. -/
theorem save_prs_c8_witness :
    save_prs ([] : Cache Nat) "w" [] c8T (some .permissionError) =
      .raised .permissionError (dictSet [] "w"
        [("timestamp", CVal.s ⟨fmtCacheTS c8T⟩), ("prs", CVal.p [])]) :=
  (save_prs_c8 Nat [] "w" [] c8T).2.2 .permissionError (by decide) (by decide)

/-- C8 counterexample: an unwritable cache file surfaces as
`PermissionError`, which `save_prs` does not catch — the save raises
instead of terminating the process, refuting "for every persistence
failure the process terminates". -/
theorem save_prs_c8_counterexample :
    save_prs ([] : Cache Nat) "u" [] c8T (some .permissionError) =
      .raised .permissionError (dictSet [] "u"
        [("timestamp", CVal.s ⟨fmtCacheTS c8T⟩), ("prs", CVal.p [])]) ∧
    (save_prs ([] : Cache Nat) "u" [] c8T (some .permissionError)).isExited = false :=
  ⟨rfl, rfl⟩

/-! ## C10: load_prs on present and absent keys -/

/-- C10.  Amended: `load_prs` returns None both for an absent key and for
a present key whose entry dict is empty (falsy); for a present non-empty
entry, a missing `"timestamp"` key or a malformed timestamp string makes
`strptime` raise `ValueError`; a well-formed timestamp yields the cached
value. -/
theorem load_prs_c10 (α : Type) (cache : Cache α) (user : String) :
    (dictGet cache user = none → load_prs cache user = .ok none) ∧
    (dictGet cache user = some [] → load_prs cache user = .ok none) ∧
    (∀ data, dictGet cache user = some data → data ≠ [] →
      dictGet data "timestamp" = none → load_prs cache user = .error .valueError) ∧
    (∀ data ts, dictGet cache user = some data → data ≠ [] →
      dictGet data "timestamp" = some (CVal.s ts) → parseCacheTS ts.data = none →
      load_prs cache user = .error .valueError) ∧
    (∀ data ts t, dictGet cache user = some data → data ≠ [] →
      dictGet data "timestamp" = some (CVal.s ts) → parseCacheTS ts.data = some t →
      load_prs cache user = .ok (some ((dictGet data "prs").getD (CVal.p []), t))) := by
  refine ⟨?_, ?_, ?_, ?_, ?_⟩
  · intro h
    unfold load_prs
    rw [h]
    rfl
  · intro h
    unfold load_prs
    rw [h]
    rfl
  · intro data hd hne hts
    unfold load_prs
    rw [hd]
    have : data.isEmpty = false := by
      cases data with
      | nil => exact absurd rfl hne
      | cons kv l => rfl
    simp only [Option.getD_some, this, Bool.false_eq_true, if_false, hts]
    rfl
  · intro data ts hd hne hts hparse
    unfold load_prs
    rw [hd]
    have : data.isEmpty = false := by
      cases data with
      | nil => exact absurd rfl hne
      | cons kv l => rfl
    simp only [Option.getD_some, this, Bool.false_eq_true, if_false, hts, hparse]
  · intro data ts t hd hne hts hparse
    unfold load_prs
    rw [hd]
    have : data.isEmpty = false := by
      cases data with
      | nil => exact absurd rfl hne
      | cons kv l => rfl
    simp only [Option.getD_some, this, Bool.false_eq_true, if_false, hts, hparse]

/-- Witness for C10: all five branches at concrete caches. -/
theorem load_prs_c10_witness :
    load_prs (c10Cache) "zoe" = .ok none ∧
    load_prs c10Cache "alice" = .ok none ∧
    load_prs c10CacheMissingTS "bob" = .error .valueError ∧
    load_prs c10CacheBadTS "carl" = .error .valueError ∧
    load_prs c10CacheGoodTS "dora" =
      .ok (some (CVal.p [7], ⟨2024, 1, 2, 3, 4, 5, 0⟩)) := by
  refine ⟨?_, ?_, ?_, ?_, ?_⟩
  · exact (load_prs_c10 Nat c10Cache "zoe").1 rfl
  · exact (load_prs_c10 Nat c10Cache "alice").2.1 rfl
  · exact (load_prs_c10 Nat c10CacheMissingTS "bob").2.2.1 _ rfl (by decide) rfl
  · exact (load_prs_c10 Nat c10CacheBadTS "carl").2.2.2.1 _ "oops" rfl (by decide) rfl rfl
  · exact (load_prs_c10 Nat c10CacheGoodTS "dora").2.2.2.2 _ "2024-01-02 03:04:05"
      ⟨2024, 1, 2, 3, 4, 5, 0⟩ rfl (by decide) rfl (by decide)

/-- C10 counterexample: the key `"alice"` is present in the cache, its
entry lacks a `"timestamp"` field, yet `load_prs` returns None instead of
raising — refuting both "None only for an absent key" and "a present
entry with missing timestamp raises". -/
theorem load_prs_c10_counterexample :
    (dictGet c10Cache "alice").isSome = true ∧ load_prs c10Cache "alice" = .ok none :=
  ⟨rfl, rfl⟩

/-! ## C5: deduplication by url -/

theorem countP_setAdd (u : String) (s : List PullRequest) (x : PullRequest) :
    (setAdd s x).countP (fun pr => pr.url == u) =
      if x.url = u ∧ s.countP (fun pr => pr.url == u) = 0 then 1
      else s.countP (fun pr => pr.url == u) := by
  unfold setAdd
  by_cases hany : s.any (fun y => prEq y x) = true
  · rw [if_pos hany]
    by_cases hx : x.url = u
    · have hcount : s.countP (fun pr => pr.url == u) ≠ 0 := by
        simp only [List.any_eq_true, prEq, beq_iff_eq] at hany
        obtain ⟨y, hy, hyx⟩ := hany
        rw [Ne, List.countP_eq_zero]
        push_neg
        exact ⟨y, hy, by simp [hyx, hx]⟩
      rw [if_neg (by tauto)]
    · rw [if_neg (by tauto)]
  · rw [if_neg hany]
    by_cases hx : x.url = u
    · have hcount : s.countP (fun pr => pr.url == u) = 0 := by
        rw [List.countP_eq_zero]
        intro a ha
        simp only [beq_iff_eq]
        intro hau
        exact hany (by
          simp only [List.any_eq_true, prEq, beq_iff_eq]
          exact ⟨a, ha, by rw [hau, hx]⟩)
      rw [if_pos ⟨hx, hcount⟩]
      simp [List.countP_append, List.countP_cons, hx, hcount]
    · rw [if_neg (by tauto)]
      simp [List.countP_append, List.countP_cons, hx]

theorem countP_foldl_setAdd (u : String) (l : List PullRequest) :
    ∀ acc, acc.countP (fun pr => pr.url == u) ≤ 1 →
      (l.foldl setAdd acc).countP (fun pr => pr.url == u) =
        if acc.countP (fun pr => pr.url == u) = 1 ∨ l.any (fun pr => pr.url == u) then 1
        else 0 := by
  induction l with
  | nil =>
    intro acc hacc
    rw [List.foldl_nil, List.any_nil]
    by_cases h : acc.countP (fun pr => pr.url == u) = 1
    · simp [h]
    · simp only [h, Bool.false_eq_true, or_self, if_false]
      omega
  | cons x l ih =>
    intro acc hacc
    rw [List.foldl_cons]
    have hstep := countP_setAdd u acc x
    have hle : (setAdd acc x).countP (fun pr => pr.url == u) ≤ 1 := by
      rw [hstep]
      by_cases hc : x.url = u ∧ acc.countP (fun pr => pr.url == u) = 0
      · rw [if_pos hc]
      · rw [if_neg hc]; exact hacc
    rw [ih (setAdd acc x) hle, hstep]
    by_cases hx : x.url = u <;>
      by_cases hz : acc.countP (fun pr => pr.url == u) = 0 <;>
        simp [List.any_cons, hx, hz] <;> omega

/-- C5.  `PullRequest.__eq__` compares urls alone (with `__hash__`
consistent), so deduplicating the concatenation of the "me" and "my team"
review-request lists through a set leaves exactly one element per url
present in the input, whatever the other fields are. -/
theorem dedup_c5 :
    (∀ a b : PullRequest, prEq a b = true ↔ a.url = b.url) ∧
    (∀ (me team : List PullRequest) (u : String),
      (me ++ team).any (fun pr => pr.url == u) = true →
      (set_review_requested_prs (me ++ team)).countP (fun pr => pr.url == u) = 1) := by
  constructor
  · intro a b
    simp [prEq]
  · intro me team u h
    unfold set_review_requested_prs pySetOfList
    rw [countP_foldl_setAdd u (me ++ team) [] (by simp)]
    simp [h]

/-- Witness for C5: the "me" and "my team" lists each hold a pull request
with url `http://x` but different titles, authors, draft flags and repos;
the merged deduplicated set holds exactly one entry with that url. -/
theorem dedup_c5_witness :
    (c5Me ++ c5Team).any (fun pr => pr.url == "http://x") = true ∧
    (set_review_requested_prs (c5Me ++ c5Team)).countP
      (fun pr => pr.url == "http://x") = 1 :=
  ⟨by decide, dedup_c5.2 c5Me c5Team "http://x" (by decide)⟩

/-! ## C7: failed reviews fetches are not fatal -/

/-- C7.  For dict-shaped search items the enrichment loop never raises:
it returns one output item per input item, and every item whose reviews
request did not return HTTP 200 gets the empty review list. -/
theorem enrich_c7 (reviewsGet : String → Response) (prs : List RawPR) :
    ∃ out, enrich reviewsGet (prs.map RawItem.dict) = .ok out ∧
      out.length = prs.length ∧
      ∀ i, i < prs.length →
        (reviewsGet (((prs.getD i defRawPR).pull_request_url.getD "") ++ "/reviews")).status ≠ 200 →
        (out.getD i defRawPR).reviews = some [] := by
  induction prs with
  | nil => exact ⟨[], rfl, rfl, fun i hi => absurd (by simpa using hi) (Nat.not_lt_zero i)⟩
  | cons pr rest ih =>
    obtain ⟨out, hout, hlen, hrev⟩ := ih
    unfold enrich at hout ⊢
    by_cases h200 : (reviewsGet ((pr.pull_request_url.getD "") ++ "/reviews")).status = 200
    · refine ⟨pr.withReviews (reviewsGet ((pr.pull_request_url.getD "") ++ "/reviews")).reviewsBody :: out,
        ?_, by simp [hlen], ?_⟩
      · simp only [List.map_cons, mapE, enrichOne, h200, if_true, hout]
      · intro i hi hne
        cases i with
        | zero =>
          simp only [List.getD_cons_zero] at hne
          exact absurd h200 hne
        | succ i =>
          simp only [List.getD_cons_succ] at hne ⊢
          exact hrev i (by simpa using hi) hne
    · refine ⟨pr.withReviews [] :: out, ?_, by simp [hlen], ?_⟩
      · simp only [List.map_cons, mapE, enrichOne, h200, if_false, hout]
      · intro i hi hne
        cases i with
        | zero =>
          simp only [List.getD_cons_zero, RawPR.withReviews]
        | succ i =>
          simp only [List.getD_cons_succ] at hne ⊢
          exact hrev i (by simpa using hi) hne

/-- Witness for C7: one dict item whose reviews request returns 404 gets
`reviews = []` and the call still succeeds. -/
theorem enrich_c7_witness :
    ∃ out, enrich c7ReviewsGet ([c7Raw].map RawItem.dict) = .ok out ∧
      out.length = 1 ∧
      ∀ i, i < 1 →
        (c7ReviewsGet ((([c7Raw].getD i defRawPR).pull_request_url.getD "") ++ "/reviews")).status ≠ 200 →
        (out.getD i defRawPR).reviews = some [] :=
  enrich_c7 c7ReviewsGet [c7Raw]

/-! ## C9: the boundary parsing function -/

theorem mapE_ok_of_all {β γ : Type} (f : β → Except PyExc γ) (l : List β)
    (h : ∀ x ∈ l, ∃ y, f x = .ok y) :
    ∃ out, mapE f l = .ok out ∧ out.length = l.length := by
  induction l with
  | nil => exact ⟨[], rfl, rfl⟩
  | cons x l ih =>
    obtain ⟨y, hy⟩ := h x (List.mem_cons_self x l)
    obtain ⟨out, hout, hlen⟩ := ih (fun z hz => h z (List.mem_cons_of_mem x hz))
    exact ⟨y :: out, by simp [mapE, hy, hout], by simp [hlen]⟩

theorem parseReview_ok (r : RawReview)
    (h : ∀ s, r.submitted_at = some s → (parseGhTS s.data).isSome = true) :
    ∃ y, parseReview r = .ok y := by
  unfold parseReview
  cases hs : r.submitted_at with
  | none => exact ⟨_, rfl⟩
  | some s =>
    have hps := h s hs
    cases hp : parseGhTS s.data with
    | none => rw [hp] at hps; simp at hps
    | some t =>
      exact ⟨⟨(r.user.getD ⟨none⟩).login.getD "", r.state.getD "", some t⟩, by simp [hp]⟩

/-- C9.  Amended totality: `raw_pr_info_to_pr_list` returns a typed
`PullRequest` list without raising for every payload list in which each
item carries a `repository_url` and a well-formed `created_at`, and each
review's `submitted_at` (when present) is well-formed — the remaining
fields (`title`, `user`, `html_url`, `draft`, `reviews`, review `user`
and `state`) may all be absent and are defaulted.  It is not total
against a missing `repository_url` (AttributeError on `None.split`) or a
missing/malformed `created_at` (ValueError from `strptime`). -/
theorem raw_parse_c9 (rs : List RawPR)
    (h : ∀ pr ∈ rs, pr.repository_url.isSome = true ∧
      (parseGhTS ((pr.created_at.getD "").data)).isSome = true ∧
      ∀ rv ∈ pr.reviews.getD [], ∀ s, rv.submitted_at = some s →
        (parseGhTS s.data).isSome = true) :
    ∃ out, raw_pr_info_to_pr_list rs = .ok out ∧ out.length = rs.length := by
  unfold raw_pr_info_to_pr_list
  apply mapE_ok_of_all
  intro pr hpr
  obtain ⟨hrepo, hcreated, hrev⟩ := h pr hpr
  unfold parseRawPR
  cases hr : pr.repository_url with
  | none => rw [hr] at hrepo; simp at hrepo
  | some ru =>
    cases hc : parseGhTS ((pr.created_at.getD "").data) with
    | none => rw [hc] at hcreated; simp at hcreated
    | some created =>
      obtain ⟨outR, houtR, _⟩ := mapE_ok_of_all parseReview (pr.reviews.getD [])
        (fun rv hrv => parseReview_ok rv (hrev rv hrv))
      exact ⟨⟨pr.title.getD "", (pr.user.getD ⟨none⟩).login.getD "", pr.html_url.getD "",
        pr.draft.getD false, ⟨(splitOn '/' ru.data).getLastD []⟩, created, outR⟩,
        by simp [houtR]⟩

/-- Witness for C9: a payload with only `repository_url` and `created_at`
present parses into one entity. -/
theorem raw_parse_c9_witness :
    ∃ out, raw_pr_info_to_pr_list [c9Raw] = .ok out ∧ out.length = [c9Raw].length := by
  apply raw_parse_c9
  intro pr hpr
  rw [List.mem_singleton] at hpr
  subst hpr
  refine ⟨rfl, by decide, ?_⟩
  intro rv hrv
  exact absurd hrv (List.not_mem_nil rv)

/-- C9 counterexample: on a payload dict with every optional field absent
the function raises `AttributeError` (from
`pr_dict.get("repository_url").split("/")`), refuting totality. -/
theorem raw_parse_c9_counterexample :
    raw_pr_info_to_pr_list [defRawPR] = .error .attributeError := rfl

/-! ## C2: the primary-rate-limit round trip of the repository's test -/

/-- C2.  Replaying the repository test `test_primary_rate_limit_handling`
through `_run_call`: the first response is 403 with zero remaining quota
and a reset one second ahead, so the client sleeps `reset - now + 5 = 6`
seconds and issues exactly one retry; the retry's 200 carries
`{"items": ["one", "two"]}`, and the reviews-enrichment loop then raises
`AttributeError` on the string item `"one"` (`str` has no `.get`),
instead of returning the two items as the test asserts. -/
theorem run_call_c2 :
    run_call 100 c2First c2Retry c2SecGet c2ReviewsGet =
      ⟨some 6, [], .error .attributeError⟩ := by
  rfl

/-! ## C6: counting occurrences of the organization clause -/

theorem isPrefOf_head_ne (a : Char) (q : List Char) (c : Char) (cs : List Char)
    (h : a ≠ c) : isPrefOf (a :: q) (c :: cs) = false := by
  simp [isPrefOf, h]

theorem isPrefOf_refl_append : ∀ (p f : List Char), isPrefOf p (p ++ f) = true := by
  intro p
  induction p with
  | nil => intro f; rfl
  | cons c p ih => intro f; simp [isPrefOf, ih]

theorem countOcc_cons_not (p : List Char) (c : Char) (cs : List Char)
    (h : isPrefOf p (c :: cs) = false) : countOcc p (c :: cs) = countOcc p cs := by
  simp [countOcc, h]

theorem countOcc_noplus_append (q L f : List Char) (hL : ∀ c ∈ L, c ≠ '+') :
    countOcc ('+' :: q) (L ++ f) = countOcc ('+' :: q) f := by
  induction L with
  | nil => rfl
  | cons c L ih =>
    have hc : c ≠ '+' := hL c (List.mem_cons_self c L)
    rw [List.cons_append,
      countOcc_cons_not _ _ _ (isPrefOf_head_ne '+' q c _ (fun hh => hc hh.symm))]
    exact ih (fun x hx => hL x (List.mem_cons_of_mem c hx))

theorem countOcc_noplus (q L : List Char) (hL : ∀ c ∈ L, c ≠ '+') :
    countOcc ('+' :: q) L = 0 := by
  have := countOcc_noplus_append q L [] hL
  rwa [List.append_nil] at this

theorem isPrefOf_orgPat_mismatch (c2 : Char) (cs : List Char) (h : c2 ≠ 'o') :
    isPrefOf orgPat ('+' :: c2 :: cs) = false := by
  simp [orgPat, isPrefOf, Ne.symm h]

theorem countOcc_litSafe_append :
    ∀ (L : List Char), litSafe L = true → ∀ f,
      countOcc orgPat (L ++ f) = countOcc orgPat f := by
  intro L
  induction L with
  | nil => intro _ f; rfl
  | cons c rest ih =>
    intro h f
    by_cases hc : c = '+'
    · subst hc
      unfold litSafe at h
      rw [if_pos rfl] at h
      match rest, h with
      | c2 :: rest2, h =>
        have h2 : (if c2 = 'o' then false else litSafe (c2 :: rest2)) = true := h
        have hc2 : ¬ c2 = 'o' := by
          intro hx
          rw [if_pos hx] at h2
          exact absurd h2 (by simp)
        have hsafe : litSafe (c2 :: rest2) = true := by rwa [if_neg hc2] at h2
        rw [List.cons_append, List.cons_append,
          countOcc_cons_not _ _ _ (isPrefOf_orgPat_mismatch c2 _ hc2)]
        have := ih hsafe f
        rwa [List.cons_append] at this
    · have hsafe : litSafe rest = true := by
        unfold litSafe at h
        rwa [if_neg hc] at h
      rw [List.cons_append, countOcc_cons_not _ _ _ ?_]
      · exact ih hsafe f
      · show isPrefOf ('+' :: ['o', 'r', 'g', ':']) _ = false
        exact isPrefOf_head_ne '+' _ c _ (fun hh => hc hh.symm)

theorem countOcc_litSafe (L : List Char) (h : litSafe L = true) :
    countOcc orgPat L = 0 := by
  have := countOcc_litSafe_append L h []
  rwa [List.append_nil, countOcc] at this

theorem countOcc_orgPat_self (f : List Char) :
    countOcc orgPat (orgPat ++ f) = 1 + countOcc orgPat f := by
  have h1 : isPrefOf orgPat ('+' :: (['o', 'r', 'g', ':'] ++ f)) = true :=
    isPrefOf_refl_append orgPat f
  have h2 : countOcc orgPat (['o', 'r', 'g', ':'] ++ f) = countOcc orgPat f :=
    countOcc_noplus_append ['o', 'r', 'g', ':'] ['o', 'r', 'g', ':'] f (by decide)
  show (if isPrefOf orgPat ('+' :: (['o', 'r', 'g', ':'] ++ f)) = true then 1 else 0) +
      countOcc orgPat (['o', 'r', 'g', ':'] ++ f) = 1 + countOcc orgPat f
  rw [h1, h2]
  simp

/-! ## C6: characters of the date filter -/

theorem isDigitCh_ne_plus (c : Char) (h : isDigitCh c = true) : c ≠ '+' := by
  intro hc
  rw [hc] at h
  simp [isDigitCh] at h

theorem decRepr_digit (n : Nat) : ∀ c ∈ decRepr n, isDigitCh c = true := by
  intro c hc
  unfold decRepr at hc
  obtain ⟨d, hd, rfl⟩ := List.mem_map.mp hc
  exact isDigitCh_digitCh (decDigits_lt n d hd)

theorem pad2_digit (n : Nat) : ∀ c ∈ pad2 n, isDigitCh c = true := by
  intro c hc
  unfold pad2 at hc
  obtain ⟨d, hd, rfl⟩ := List.mem_map.mp hc
  exact isDigitCh_digitCh (pad2Digits_lt n d hd)

theorem ymdChars_noplus (y m d : Nat) : ∀ c ∈ ymdChars y m d, c ≠ '+' := by
  intro c hc
  unfold ymdChars fmtY at hc
  simp only [List.mem_append, List.mem_cons, or_assoc] at hc
  rcases hc with h | h | h | h | h
  · exact isDigitCh_ne_plus c (decRepr_digit y c h)
  · subst h; decide
  · exact isDigitCh_ne_plus c (pad2_digit m c h)
  · subst h; decide
  · exact isDigitCh_ne_plus c (pad2_digit d c h)

theorem make_time_filter_noplus (db : Nat) (now : PyDateTime) :
    ∀ c ∈ make_time_filter db now, c ≠ '+' := by
  intro c hc
  unfold make_time_filter ymdOfCivil at hc
  simp only [List.mem_append, List.mem_cons, or_assoc] at hc
  rcases hc with h | h | h | h
  · exact ymdChars_noplus _ _ _ c h
  · subst h; decide
  · subst h; decide
  · exact ymdChars_noplus _ _ _ c h

/-! ## C6: shape of a date rendering -/

theorem isYMDShape_of_parts (l1 l2 l3 : List Char)
    (h1 : l1.length = 4) (h2 : l2.length = 2) (h3 : l3.length = 2)
    (hd1 : ∀ c ∈ l1, isDigitCh c = true) (hd2 : ∀ c ∈ l2, isDigitCh c = true)
    (hd3 : ∀ c ∈ l3, isDigitCh c = true) :
    isYMDShape (l1 ++ '-' :: l2 ++ '-' :: l3) = true := by
  rcases l1 with _ | ⟨a, _ | ⟨b, _ | ⟨c, _ | ⟨d, _ | _⟩⟩⟩⟩ <;> simp_all
  rcases l2 with _ | ⟨e, _ | ⟨f2, _ | _⟩⟩ <;> simp_all
  rcases l3 with _ | ⟨g, _ | ⟨h4, _ | _⟩⟩ <;> simp_all
  simp [isYMDShape, hd1, hd2, hd3]

theorem isYMDShape_ymdChars {y m d : Nat} (hy1 : 1000 ≤ y) (hy2 : y ≤ 9999)
    (hm : m < 100) (hd : d < 100) : isYMDShape (ymdChars y m d) = true := by
  unfold ymdChars fmtY
  refine isYMDShape_of_parts _ _ _ ?_ ?_ ?_ (decRepr_digit y) (pad2_digit m) (pad2_digit d)
  · simp [decRepr, decDigits_length_eq_four hy1 hy2]
  · simp [pad2, pad2Digits_length hm]
  · simp [pad2, pad2Digits_length hd]

/-! ## C6: specializations of the counting lemmas to the org pattern -/

theorem countOcc_orgPat_noplus_append (L f : List Char) (hL : ∀ c ∈ L, c ≠ '+') :
    countOcc orgPat (L ++ f) = countOcc orgPat f :=
  countOcc_noplus_append ['o', 'r', 'g', ':'] L f hL

theorem countOcc_orgPat_noplus (L : List Char) (hL : ∀ c ∈ L, c ≠ '+') :
    countOcc orgPat L = 0 :=
  countOcc_noplus ['o', 'r', 'g', ':'] L hL

/-- C6.  Query construction: for `days_back = 7` the date filter of every
query is the calendar rendering of the day 7 serial days before today
joined by `".."` to today's rendering, both in `YYYY-MM-DD` shape (under
the year bounds that make four-digit years); with no organization the
three query strings contain the date filter and no org clause, and with
an organization set the clause `+org:` occurs exactly once in each of the
three query strings (usernames and org names do not contain `'+'`). -/
theorem query_construction_c6 (u o : String) (now : PyDateTime)
    (hu : ∀ c ∈ u.data, c ≠ '+') (ho : ∀ c ∈ o.data, c ≠ '+')
    (hy1 : 1000 ≤ now.year) (hy2 : now.year ≤ 9999)
    (hm : now.month < 100) (hd : now.day < 100)
    (hs1 : 1000 ≤ (civilFromDays (daysFromCivil now.year now.month now.day - 7)).1.toNat)
    (hs2 : (civilFromDays (daysFromCivil now.year now.month now.day - 7)).1.toNat ≤ 9999)
    (hs3 : (civilFromDays (daysFromCivil now.year now.month now.day - 7)).2.1 < 100)
    (hs4 : (civilFromDays (daysFromCivil now.year now.month now.day - 7)).2.2 < 100) :
    (make_time_filter 7 now =
      ymdOfCivil (civilFromDays (daysFromCivil now.year now.month now.day - 7)) ++
        '.' :: '.' :: ymdChars now.year now.month now.day) ∧
    isYMDShape (ymdOfCivil (civilFromDays (daysFromCivil now.year now.month now.day - 7))) = true ∧
    isYMDShape (ymdChars now.year now.month now.day) = true ∧
    (get_open_prs_query u none 7 now =
      GITHUB_API_URL.data ++ "/search/issues?q=author:".data ++ u.data ++
        "+type:pr+is:open+created:".data ++ make_time_filter 7 now) ∧
    (review_req_user_query u none 7 now =
      GITHUB_API_URL.data ++ "/search/issues?q=is:pr+review-requested:".data ++ u.data ++
        "+created:".data ++ make_time_filter 7 now ++ "+is:open".data) ∧
    (review_req_team_query u none 7 now =
      GITHUB_API_URL.data ++ "/search/issues?q=is:pr+team-review-requested:".data ++ u.data ++
        "+created:".data ++ make_time_filter 7 now ++ "+is:open".data) ∧
    countOcc orgPat (get_open_prs_query u (some o) 7 now) = 1 ∧
    countOcc orgPat (review_req_user_query u (some o) 7 now) = 1 ∧
    countOcc orgPat (review_req_team_query u (some o) 7 now) = 1 := by
  refine ⟨rfl, ?_, ?_, ?_, ?_, ?_, ?_, ?_, ?_⟩
  · unfold ymdOfCivil
    exact isYMDShape_ymdChars hs1 hs2 hs3 hs4
  · exact isYMDShape_ymdChars hy1 hy2 hm hd
  · simp [get_open_prs_query, orgClause]
  · simp [review_req_user_query, orgClause]
  · simp [review_req_team_query, orgClause]
  · unfold get_open_prs_query
    rw [show orgClause (some o) = orgPat ++ o.data from rfl]
    simp only [List.append_assoc]
    rw [countOcc_orgPat_noplus_append GITHUB_API_URL.data _ (by decide)]
    rw [countOcc_orgPat_noplus_append "/search/issues?q=author:".data _ (by decide)]
    rw [countOcc_orgPat_noplus_append u.data _ hu]
    rw [countOcc_orgPat_self]
    rw [countOcc_orgPat_noplus_append o.data _ ho]
    rw [countOcc_litSafe_append "+type:pr+is:open+created:".data (by decide)]
    rw [countOcc_orgPat_noplus (make_time_filter 7 now) (make_time_filter_noplus 7 now)]
  · unfold review_req_user_query
    rw [show orgClause (some o) = orgPat ++ o.data from rfl]
    simp only [List.append_assoc]
    rw [countOcc_orgPat_noplus_append GITHUB_API_URL.data _ (by decide)]
    rw [countOcc_litSafe_append "/search/issues?q=is:pr+review-requested:".data (by decide)]
    rw [countOcc_orgPat_noplus_append u.data _ hu]
    rw [countOcc_orgPat_self]
    rw [countOcc_orgPat_noplus_append o.data _ ho]
    rw [countOcc_litSafe_append "+created:".data (by decide)]
    rw [countOcc_orgPat_noplus_append (make_time_filter 7 now) _ (make_time_filter_noplus 7 now)]
    rw [countOcc_litSafe "+is:open".data (by decide)]
  · unfold review_req_team_query
    rw [show orgClause (some o) = orgPat ++ o.data from rfl]
    simp only [List.append_assoc]
    rw [countOcc_orgPat_noplus_append GITHUB_API_URL.data _ (by decide)]
    rw [countOcc_litSafe_append "/search/issues?q=is:pr+team-review-requested:".data (by decide)]
    rw [countOcc_orgPat_noplus_append u.data _ hu]
    rw [countOcc_orgPat_self]
    rw [countOcc_orgPat_noplus_append o.data _ ho]
    rw [countOcc_litSafe_append "+created:".data (by decide)]
    rw [countOcc_orgPat_noplus_append (make_time_filter 7 now) _ (make_time_filter_noplus 7 now)]
    rw [countOcc_litSafe "+is:open".data (by decide)]

/-- Witness for C6: the concrete day 2026-10-12 with username `alice`
and organization `acme`. -/
theorem query_construction_c6_witness :
    countOcc orgPat (get_open_prs_query "alice" (some "acme") 7 c6Now) = 1 ∧
    countOcc orgPat (review_req_user_query "alice" (some "acme") 7 c6Now) = 1 ∧
    countOcc orgPat (review_req_team_query "alice" (some "acme") 7 c6Now) = 1 ∧
    isYMDShape (ymdChars c6Now.year c6Now.month c6Now.day) = true := by
  have h := query_construction_c6 "alice" "acme" c6Now (by decide) (by decide)
    (by decide) (by decide) (by decide) (by decide) (by decide) (by decide)
    (by decide) (by decide)
  exact ⟨h.2.2.2.2.2.2.1, h.2.2.2.2.2.2.2.1, h.2.2.2.2.2.2.2.2, h.2.2.1⟩

end PreamTeam
